import Mathlib

/-!
go_db_pg: the request handlers of `main.go`

A shallow embedding of the HTTP handlers of `src/main.go` and of the parts of the
Go standard library they call.

Conventions of the embedding.

* A Go `string` is a Lean `String` (its contents are taken to be valid UTF-8),
  and so is the content of a `[]byte` value.
* An `error` is the text of `err.Error()`; a Go function returning `(T, error)`
  is a function into `Except String T`.
* The database is an environment: the handle `ConnectDB` opens answers each
  `Query` and `Exec`; a handler returns the final state of its
  `http.ResponseWriter` together with the statements it sent.
* `url.Values` and `http.Header` are Go maps; they are association lists here,
  listed in the order in which the run iterates over them.
* The deferred `db.Close()` and `rows.Close()` send no statement and write nothing
  to the response; they are left out.
-/

namespace GoDbPg

/-! ## net/http: headers and the response writer -/

/-- The Go type `http.Header`, a map from (canonical) header names to their values. -/
abbrev Header := List (String × List String)

/-- All values stored under `key` (the Go expression `h[key]`). -/
def Header.values (h : Header) (key : String) : List String :=
  match h with
  | [] => []
  | (k, vs) :: rest => if k = key then vs else Header.values rest key

/-- Go `Header.Get`: the first value under `key`, or the empty string. -/
def Header.Get (h : Header) (key : String) : String :=
  match Header.values h key with
  | [] => ""
  | v :: _ => v

/-- Go `Header.Add`: append `value` to the values under `key`. -/
def Header.Add (h : Header) (key value : String) : Header :=
  match h with
  | [] => [(key, [value])]
  | (k, vs) :: rest =>
    if k = key then (k, vs ++ [value]) :: rest else (k, vs) :: Header.Add rest key value

/-- Go `Header.Set`: replace the values under `key` by the single `value`. -/
def Header.Set (h : Header) (key value : String) : Header :=
  match h with
  | [] => [(key, [value])]
  | (k, vs) :: rest =>
    if k = key then (k, [value]) :: rest else (k, vs) :: Header.Set rest key value

/-- Go `Header.Del`: remove `key`. -/
def Header.Del (h : Header) (key : String) : Header :=
  h.filter (fun e => decide (e.1 ≠ key))

/-- The state of an `http.ResponseWriter`: the live header map, the status line
once it has been written (with the headers sent along with it), and the body. -/
structure ResponseWriter where
  header : Header
  status : Option Nat
  sent : Header
  body : String
deriving DecidableEq, Repr

/-- The writer a handler is called with. -/
def ResponseWriter.fresh : ResponseWriter :=
  { header := [], status := none, sent := [], body := "" }

/-- Go `w.WriteHeader(code)`: the first call fixes the status and the headers. -/
def ResponseWriter.WriteHeader (w : ResponseWriter) (code : Nat) : ResponseWriter :=
  match w.status with
  | some _ => w
  | none => { w with status := some code, sent := w.header }

/-- Go `w.Write(b)`: writes status 200 first when no status was written. -/
def ResponseWriter.Write (w : ResponseWriter) (b : String) : ResponseWriter :=
  let w1 := w.WriteHeader 200
  { w1 with body := w1.body ++ b }

/-- What the client receives. -/
structure Response where
  status : Nat
  header : Header
  body : String
deriving DecidableEq, Repr

/-- The response of a finished handler (the server sends status 200 when the
handler wrote nothing). -/
def ResponseWriter.response (w : ResponseWriter) : Response :=
  let w1 := w.WriteHeader 200
  { status := w1.status.getD 200, header := w1.sent, body := w1.body }

/-! ## encoding/json -/

/-- One lower-case hexadecimal digit. -/
def hexDigit (n : Nat) : Char :=
  if n < 10 then Char.ofNat (48 + n) else Char.ofNat (87 + n)

/-- The encoding of one character inside a JSON string, as `encoding/json`
writes it with HTML escaping on (the default of `Marshal` and `Encoder`): the
quote, the backslash and the control characters are escaped, and so are the
characters `<`, `>`, `&`, U+2028 and U+2029 (short forms for backspace and form
feed as of Go 1.22). -/
def jsonEscapeChar (c : Char) : String :=
  if c.toNat = 34 then "\\\""
  else if c.toNat = 92 then "\\\\"
  else if c.toNat = 8 then "\\b"
  else if c.toNat = 12 then "\\f"
  else if c.toNat = 10 then "\\n"
  else if c.toNat = 13 then "\\r"
  else if c.toNat = 9 then "\\t"
  else if c.toNat < 32 ∨ c.toNat = 60 ∨ c.toNat = 62 ∨ c.toNat = 38 then
    "\\u00" ++ String.singleton (hexDigit (c.toNat / 16))
      ++ String.singleton (hexDigit (c.toNat % 16))
  else if c.toNat = 8232 then "\\u2028"
  else if c.toNat = 8233 then "\\u2029"
  else String.singleton c

/-- The JSON encoding of a Go string. -/
def jsonString (s : String) : String :=
  "\"" ++ String.join (s.data.map jsonEscapeChar) ++ "\""

/-- The text `json.NewEncoder(w).Encode(map[string]string{"msg": message})` writes:
the object followed by a newline. -/
def encodeMsg (message : String) : String :=
  "\x7b\"msg\":" ++ jsonString message ++ "\x7d\n"

/-- Write a JSON error response (`writeJSONError` of main.go). -/
def writeJSONError (w : ResponseWriter) (message : String) (statusCode : Nat) :
    ResponseWriter :=
  let w1 := { w with header := w.header.Set "Content-Type" "application/json" }
  let w2 := w1.WriteHeader statusCode
  w2.Write (encodeMsg message)

/-- Go `http.Error`: a plain-text error response. -/
def httpError (w : ResponseWriter) (error : String) (code : Nat) : ResponseWriter :=
  let h1 := w.header.Del "Content-Length"
  let h2 := h1.Set "Content-Type" "text/plain; charset=utf-8"
  let h3 := h2.Set "X-Content-Type-Options" "nosniff"
  let w1 := { w with header := h3 }
  let w2 := w1.WriteHeader code
  w2.Write (error ++ "\n")

/-! ## Values a row holds -/

/-- A Go `float64` as far as the program is concerned: it is only ever printed.
A finite value is given by the decimal text `encoding/json` prints for it. -/
inductive Float64 where
  | finite (text : String)
  | nan
  | posInf
  | negInf
deriving DecidableEq, Repr

/-- The dynamic types `rows.Scan` stores into an `interface{}` holder
(the types of `database/sql/driver.Value`). A `time.Time` is given by its year, the
offset of its zone in seconds and its RFC 3339 text. -/
inductive Value where
  | nil
  | int64 (n : Int)
  | float64 (f : Float64)
  | bool (b : Bool)
  | bytes (b : String)
  | string (s : String)
  | time (year : Int) (zoneOffset : Int) (rfc3339 : String)
deriving DecidableEq, Repr

/-- A Go `map[string]interface{}`: one entry per key. -/
abbrev Row := List (String × Value)

/-- The Go assignment `row[key] = v`. -/
def Row.set (row : Row) (key : String) (v : Value) : Row :=
  match row with
  | [] => [(key, v)]
  | (k, x) :: rest => if k = key then (k, v) :: rest else (k, x) :: Row.set rest key v

/-- A Go slice of rows declared by `var data []map[string]interface{}`:
`none` is the nil slice, which differs from an empty one when marshalled. -/
abbrev RowSlice := Option (List Row)

/-- Go `append(data, row)`. -/
def RowSlice.append (data : RowSlice) (row : Row) : RowSlice :=
  match data with
  | none => some [row]
  | some rows => some (rows ++ [row])

/-- One character of the standard base64 alphabet. -/
def b64Char (n : Nat) : Char :=
  if n < 26 then Char.ofNat (65 + n)
  else if n < 52 then Char.ofNat (71 + n)
  else if n < 62 then Char.ofNat (n - 4)
  else if n = 62 then Char.ofNat 43
  else Char.ofNat 47

/-- Standard base64 with padding, over byte values. -/
def base64 : List Nat → List Char
  | a :: b :: c :: rest =>
    b64Char (a / 4) :: b64Char ((a % 4) * 16 + b / 16) :: b64Char ((b % 16) * 4 + c / 64)
      :: b64Char (c % 64) :: base64 rest
  | [a, b] =>
    [b64Char (a / 4), b64Char ((a % 4) * 16 + b / 16), b64Char ((b % 16) * 4), Char.ofNat 61]
  | [a] => [b64Char (a / 4), b64Char ((a % 4) * 16), Char.ofNat 61, Char.ofNat 61]
  | [] => []

/-- The UTF-8 bytes of one character. -/
def utf8Char (c : Char) : List Nat :=
  if c.toNat < 128 then [c.toNat]
  else if c.toNat < 2048 then [192 + c.toNat / 64, 128 + c.toNat % 64]
  else if c.toNat < 65536 then
    [224 + c.toNat / 4096, 128 + (c.toNat / 64) % 64, 128 + c.toNat % 64]
  else
    [240 + c.toNat / 262144, 128 + (c.toNat / 4096) % 64, 128 + (c.toNat / 64) % 64,
      128 + c.toNat % 64]

/-- The UTF-8 bytes of a list of characters. -/
def utf8Chars : List Char → List Nat
  | [] => []
  | c :: rest => utf8Char c ++ utf8Chars rest

/-- The UTF-8 bytes of a text. -/
def utf8Bytes (s : String) : List Nat :=
  utf8Chars s.data

/-- What `json.Marshal` produces for one scanned value. A `float64` that is not
finite is rejected, and so is a `time.Time` that has no RFC 3339 form: a year
outside 0..9999, or a zone offset of 24 hours or more either way. -/
def marshalValue : Value → Except String String
  | .nil => .ok "null"
  | .int64 n => .ok (toString n)
  | .float64 (.finite text) => .ok text
  | .float64 .nan => .error "json: unsupported value: NaN"
  | .float64 .posInf => .error "json: unsupported value: +Inf"
  | .float64 .negInf => .error "json: unsupported value: -Inf"
  | .bool b => .ok (if b then "true" else "false")
  | .bytes b => .ok ("\"" ++ String.mk (base64 (utf8Bytes b)) ++ "\"")
  | .string s => .ok (jsonString s)
  | .time year zoneOffset rfc3339 =>
    if year < 0 ∨ 9999 < year then
      .error "json: error calling MarshalJSON for type time.Time: Time.MarshalJSON: year outside of range [0,9999]"
    else if zoneOffset ≤ -86400 ∨ 86400 ≤ zoneOffset then
      .error "json: error calling MarshalJSON for type time.Time: Time.MarshalJSON: timezone hour outside of range [0,23]"
    else .ok ("\"" ++ rfc3339 ++ "\"")

/-- Byte order on texts (the order in which `encoding/json` writes map keys). -/
def keyLe : List Char → List Char → Bool
  | [], _ => true
  | _ :: _, [] => false
  | a :: as, b :: bs =>
    if a.toNat < b.toNat then true
    else if b.toNat < a.toNat then false
    else keyLe as bs

/-- Insert an entry into a list of entries sorted by key. -/
def insertByKey {α : Type} (e : String × α) : List (String × α) → List (String × α)
  | [] => [e]
  | x :: rest => if keyLe e.1.data x.1.data then e :: x :: rest else x :: insertByKey e rest

/-- The entries of a map sorted by key. -/
def sortByKey {α : Type} : List (String × α) → List (String × α)
  | [] => []
  | e :: rest => insertByKey e (sortByKey rest)

/-- The members `"key":value` of an object, in the given order; the first value
that cannot be encoded fails the whole. -/
def marshalMembers : List (String × Value) → Except String (List String)
  | [] => .ok []
  | (k, v) :: rest =>
    match marshalValue v with
    | .error e => .error e
    | .ok j =>
      match marshalMembers rest with
      | .error e => .error e
      | .ok js => .ok ((jsonString k ++ ":" ++ j) :: js)

/-- What `json.Marshal` produces for one `map[string]interface{}`. -/
def marshalRow (row : Row) : Except String String :=
  match marshalMembers (sortByKey row) with
  | .error e => .error e
  | .ok members => .ok ("\x7b" ++ ",".intercalate members ++ "\x7d")

/-- The encodings of the rows of a slice, in order. -/
def marshalRows : List Row → Except String (List String)
  | [] => .ok []
  | row :: rest =>
    match marshalRow row with
    | .error e => .error e
    | .ok j =>
      match marshalRows rest with
      | .error e => .error e
      | .ok js => .ok (j :: js)

/-- What `json.Marshal` produces for a `[]map[string]interface{}`: `null` for the nil
slice, an array otherwise. -/
def marshalData (data : RowSlice) : Except String String :=
  match data with
  | none => .ok "null"
  | some rows =>
    match marshalRows rows with
    | .error e => .error e
    | .ok objs => .ok ("[" ++ ",".intercalate objs ++ "]")

/-- What `json.Marshal` produces for a `map[string]string`; it cannot fail. -/
def marshalStringMap (m : List (String × String)) : Except String String :=
  .ok ("\x7b" ++ ",".intercalate
    ((sortByKey m).map (fun e => jsonString e.1 ++ ":" ++ jsonString e.2)) ++ "\x7d")

/-! ## database/sql -/

/-- A result cursor (`*sql.Rows`): the outcome of `Columns()` and, for each row that
`Next()` yields, the outcome of scanning it. -/
structure Rows where
  Columns : Except String (List String)
  scans : List (Except String (List Value))

/-- The Go type `sql.Result`. -/
structure Result where
  RowsAffected : Except String Int

/-- An open handle (`*sql.DB`): how the backend answers a statement with its bound
arguments. The arguments this program binds are all strings. -/
structure DB where
  Query : String → List String → Except String Rows
  Exec : String → List String → Except String Result

/-- A statement sent to the database, with its bound arguments. -/
inductive Stmt where
  | query (text : String) (args : List String)
  | exec (text : String) (args : List String)
deriving DecidableEq, Repr

/-- The environment of a request: the backend behind `DB_URI`. -/
structure Env where
  db : DB

/-- Go `sql.Open("postgres", os.Getenv("DB_URI"))`. It opens no connection. It fails
for a driver name that is not registered, or when the driver has an
`OpenConnector` that rejects the data source name; the import of lib/pq registers
`postgres`, and its driver has no `OpenConnector`, so the handle is returned
whatever the URI is (a bad URI fails the first statement instead). -/
def sqlOpen (env : Env) : Except String DB :=
  .ok env.db

/-- The function `ConnectDB` of main.go. -/
def Env.ConnectDB (env : Env) : Except String DB :=
  match sqlOpen env with
  | .error err => .error err
  | .ok db => .ok db

/-! ## net/url and the request -/

/-- One entry of a `url.Values` map: a key and its values. `url.ParseQuery` creates
an entry only by appending a value, so there is always a first one (`val[0]`). -/
structure Param where
  key : String
  first : String
  more : List String
deriving DecidableEq, Repr

/-- The Go type `url.Values`, listed in the order of the run's iteration. -/
abbrev Values := List Param

/-- Go `Values.Get`: the first value of `key`, or the empty string. -/
def Values.Get (v : Values) (key : String) : String :=
  match v with
  | [] => ""
  | p :: rest => if p.key = key then p.first else Values.Get rest key

/-- The part of `*http.Request` the handlers read. -/
structure Request where
  Header : Header
  Query : Values

/-- What a handler run leaves behind: the writer and the statements sent. -/
structure Run where
  w : ResponseWriter
  stmts : List Stmt
deriving DecidableEq, Repr

/-- The response of a run. -/
def Run.response (r : Run) : Response := r.w.response

/-- The Go read `row[key]` with its presence flag. -/
def Row.get? (row : Row) (key : String) : Option Value :=
  match row with
  | [] => none
  | (k, x) :: rest => if k = key then some x else Row.get? rest key

/-! ## The program -/

/-- The holders a row is scanned into: `values[i]` for `i` below `len(columns)`,
each nil until `rows.Scan` stores the driver's value. -/
def scanInto (n : Nat) (scanned : List Value) : List Value :=
  (List.range n).map (fun i => scanned.getD i Value.nil)

/-- The row map `RowsToJson` builds from the scanned values:
`row[colName] = columnValues[i]` for each column. -/
def RowsToJson.row (columns : List String) (columnValues : List Value) : Row :=
  columns.enum.foldl (fun row ic => row.set ic.2 (columnValues.getD ic.1 Value.nil)) []

/-- The `for rows.Next()` loop of `RowsToJson`. -/
def RowsToJson.loop (columns : List String) :
    List (Except String (List Value)) → RowSlice → Except String RowSlice
  | [], result => .ok result
  | .error e :: _, _ => .error ("failed to scan data: " ++ e)
  | .ok scanned :: rest, result =>
    let columnValues := scanInto columns.length scanned
    RowsToJson.loop columns rest (result.append (RowsToJson.row columns columnValues))

/-- The function `RowsToJson` of main.go. -/
def RowsToJson (rows : Rows) : Except String String :=
  match rows.Columns with
  | .error err => .error ("fetch error: " ++ err)
  | .ok columns =>
    match RowsToJson.loop columns rows.scans none with
    | .error err => .error err
    | .ok result =>
      match marshalData result with
      | .error err => .error ("failed to marshal JSON: " ++ err)
      | .ok json_data => .ok json_data

/-- The function `RootHandler` of main.go. -/
def RootHandler (w : ResponseWriter) : Run :=
  let h1 := w.header.Add "Content-Type" "application/json"
  let h2 := h1.Add "Access-Control-Allow-Origin" "*"
  let h3 := h2.Add "Access-Control-Allow-Methods" "GET"
  let w1 := { w with header := h3 }
  match marshalStringMap [("status", "ready"), ("msg", "Hello")] with
  | .error _ => ⟨httpError w1 "Error marshalling JSON res" 500, []⟩
  | .ok json_data => ⟨w1.Write json_data, []⟩

/-- The conversion in the loop of `GetInvoices`: `v = string(b)` when the value is
a `[]byte`, `v = val` otherwise. -/
def GetInvoices.convert (val : Value) : Value :=
  match val with
  | .bytes b => .string b
  | v => v

/-- The row map `GetInvoices` builds from the scanned values. -/
def GetInvoices.row (columns : List String) (values : List Value) : Row :=
  columns.enum.foldl
    (fun row ic => row.set ic.2 (GetInvoices.convert (values.getD ic.1 Value.nil))) []

/-- The `for rows.Next()` loop of `GetInvoices`; an error is a failed `Scan`. -/
def GetInvoices.loop (columns : List String) :
    List (Except String (List Value)) → RowSlice → Except String RowSlice
  | [], data => .ok data
  | .error e :: _, _ => .error e
  | .ok scanned :: rest, data =>
    let values := scanInto columns.length scanned
    GetInvoices.loop columns rest (data.append (GetInvoices.row columns values))

/-- The part of `GetInvoices` after the query was issued (lines 153 to 201). -/
def GetInvoices.finish (w : ResponseWriter) (res : Except String Rows) : ResponseWriter :=
  match res with
  | .error _ => writeJSONError w "Error fetching data" 500
  | .ok rows =>
    match rows.Columns with
    | .error _ => writeJSONError w "Error getting column names" 500
    | .ok columns =>
      match GetInvoices.loop columns rows.scans none with
      | .error _ => writeJSONError w "Error scanning data" 500
      | .ok data =>
        match marshalData data with
        | .error _ => writeJSONError w "Error marshalling data" 500
        | .ok jsonData =>
          ((w.Write "\x7b\"msg\": \"ok\", \"data\": ").Write jsonData).Write "\x7d"

/-- The function `GetInvoices` of main.go. -/
def GetInvoices (env : Env) (r : Request) (AUTH TABLE : String) (w : ResponseWriter) : Run :=
  match env.ConnectDB with
  | .error _ => ⟨writeJSONError w "Error connecting to database" 500, []⟩
  | .ok db =>
    let h1 := w.header.Add "Content-Type" "application/json"
    let h2 := h1.Add "Access-Control-Allow-Origin" "*"
    let h3 := h2.Add "Access-Control-Allow-Methods" "GET"
    let w1 := { w with header := h3 }
    let req_auth := r.Header.Get "Authorization"
    if req_auth ≠ AUTH then ⟨writeJSONError w1 "Invalid auth" 401, []⟩
    else
      let req := r.Query
      let req_id := req.Get "id"
      let req_what := req.Get "what"
      if req_id ≠ "" ∧ req_what ≠ "" then
        let text := "SELECT " ++ req_what ++ " FROM " ++ TABLE ++ " WHERE id = $1"
        ⟨GetInvoices.finish w1 (db.Query text [req_id]), [Stmt.query text [req_id]]⟩
      else if req_what ≠ "" then
        let text := "SELECT " ++ req_what ++ " FROM " ++ TABLE
        ⟨GetInvoices.finish w1 (db.Query text []), [Stmt.query text []]⟩
      else ⟨writeJSONError w1 "Missing 'id' or 'what' parameter" 400, []⟩

/-- The common tail of the three writing handlers: the affected-row count. -/
def writeAffected (w : ResponseWriter) (result : Result) : ResponseWriter :=
  match result.RowsAffected with
  | .error _ => writeJSONError w "Error getting affected rows" 500
  | .ok rowsAffected =>
    w.Write ("\x7b\"msg\": \"ok\", \"affected\": " ++ toString rowsAffected ++ "\x7d")

/-- The function `DeleteInvoice` of main.go. -/
def DeleteInvoice (env : Env) (r : Request) (AUTH TABLE : String) (w : ResponseWriter) :
    Run :=
  match env.ConnectDB with
  | .error _ => ⟨writeJSONError w "Error connecting to database" 500, []⟩
  | .ok db =>
    let h1 := w.header.Add "Content-Type" "application/json"
    let h2 := h1.Add "Access-Control-Allow-Origin" "*"
    let h3 := h2.Add "Access-Control-Allow-Methods" "DELETE"
    let w1 := { w with header := h3 }
    let req := r.Query
    let req_auth := r.Header.Get "Authorization"
    let req_id := req.Get "id"
    if req_auth ≠ AUTH then ⟨writeJSONError w1 "Invalid auth" 401, []⟩
    else if req_id = "" then ⟨writeJSONError w1 "Invalid id" 400, []⟩
    else
      let text := "DELETE FROM " ++ TABLE ++ " WHERE id = $1"
      match db.Exec text [req_id] with
      | .error _ => ⟨writeJSONError w1 "Error deleting data" 500, [Stmt.exec text [req_id]]⟩
      | .ok result => ⟨writeAffected w1 result, [Stmt.exec text [req_id]]⟩

/-- The state of the loop of `AddInvoice`. -/
structure AddState where
  columns : List String
  placeholders : List String
  values : List String
  i : Nat
deriving DecidableEq, Repr

/-- One iteration of `for key, val := range req` in `AddInvoice`. -/
def AddInvoice.step (st : AddState) (p : Param) : AddState :=
  if p.key ≠ "auth" then
    { columns := st.columns ++ [p.key]
      placeholders := st.placeholders ++ ["$" ++ toString st.i]
      values := st.values ++ [p.first]
      i := st.i + 1 }
  else st

/-- The loop of `AddInvoice`, started with `i := 1` and nil slices. -/
def AddInvoice.loop (req : Values) : AddState :=
  req.foldl AddInvoice.step { columns := [], placeholders := [], values := [], i := 1 }

/-- The function `AddInvoice` of main.go. -/
def AddInvoice (env : Env) (r : Request) (AUTH TABLE : String) (w : ResponseWriter) : Run :=
  match env.ConnectDB with
  | .error _ => ⟨writeJSONError w "Error connecting to database" 500, []⟩
  | .ok db =>
    let h1 := w.header.Add "Content-Type" "application/json"
    let h2 := h1.Add "Access-Control-Allow-Origin" "*"
    let h3 := h2.Add "Access-Control-Allow-Methods" "POST"
    let w1 := { w with header := h3 }
    let req := r.Query
    let req_auth := r.Header.Get "Authorization"
    if req_auth ≠ AUTH then ⟨writeJSONError w1 "Invalid auth" 401, []⟩
    else
      let st := AddInvoice.loop req
      let query := "INSERT INTO " ++ TABLE ++ " (" ++ ",".intercalate st.columns
        ++ ") VALUES (" ++ ",".intercalate st.placeholders ++ ")"
      match db.Exec query st.values with
      | .error err =>
        ⟨writeJSONError w1 ("Error inserting data: " ++ err) 500, [Stmt.exec query st.values]⟩
      | .ok result => ⟨writeAffected w1 result, [Stmt.exec query st.values]⟩

/-- The state of the loop of `UpdateInvoice`. -/
structure UpdState where
  updates : List String
  values : List String
  i : Nat
deriving DecidableEq, Repr

/-- One iteration of `for key, val := range req` in `UpdateInvoice`. -/
def UpdateInvoice.step (st : UpdState) (p : Param) : UpdState :=
  if p.key ≠ "id" ∧ p.key ≠ "auth" then
    { updates := st.updates ++ [p.key ++ " = $" ++ toString st.i]
      values := st.values ++ [p.first]
      i := st.i + 1 }
  else st

/-- The loop of `UpdateInvoice`, started with `i := 1` and nil slices. -/
def UpdateInvoice.loop (req : Values) : UpdState :=
  req.foldl UpdateInvoice.step { updates := [], values := [], i := 1 }

/-- The function `UpdateInvoice` of main.go. -/
def UpdateInvoice (env : Env) (r : Request) (AUTH TABLE : String) (w : ResponseWriter) :
    Run :=
  match env.ConnectDB with
  | .error _ => ⟨writeJSONError w "Error connecting to database" 500, []⟩
  | .ok db =>
    let h1 := w.header.Add "Content-Type" "application/json"
    let h2 := h1.Add "Access-Control-Allow-Origin" "*"
    let h3 := h2.Add "Access-Control-Allow-Methods" "PUT"
    let w1 := { w with header := h3 }
    let req := r.Query
    let req_auth := r.Header.Get "Authorization"
    if req_auth ≠ AUTH then ⟨writeJSONError w1 "Invalid auth" 401, []⟩
    else
      let req_id := req.Get "id"
      if req_id = "" then ⟨writeJSONError w1 "Missing 'id' parameter" 400, []⟩
      else
        let st := UpdateInvoice.loop req
        let query := "UPDATE " ++ TABLE ++ " SET " ++ ",".intercalate st.updates
          ++ " WHERE id = $" ++ toString st.i
        let values := st.values ++ [req_id]
        match db.Exec query values with
        | .error _ => ⟨writeJSONError w1 "Error updating data" 500, [Stmt.exec query values]⟩
        | .ok result => ⟨writeAffected w1 result, [Stmt.exec query values]⟩

/-- The handler behind a route of `main`, called with a fresh writer. -/
inductive Route where
  | get
  | del
  | add
  | upd
deriving DecidableEq, Repr

/-- The dispatch of `main`: the handler registered for each protected route. -/
def Route.handle (rt : Route) (env : Env) (r : Request) (AUTH TABLE : String) : Run :=
  match rt with
  | .get => GetInvoices env r AUTH TABLE ResponseWriter.fresh
  | .del => DeleteInvoice env r AUTH TABLE ResponseWriter.fresh
  | .add => AddInvoice env r AUTH TABLE ResponseWriter.fresh
  | .upd => UpdateInvoice env r AUTH TABLE ResponseWriter.fresh

/-- The text of a statement. -/
def Stmt.text : Stmt → String
  | .query text _ => text
  | .exec text _ => text

/-- The driver error with which the handle answers a statement, if it fails. -/
def DB.failure (db : DB) : Stmt → Option String
  | .query text args =>
    match db.Query text args with
    | .error e => some e
    | .ok _ => none
  | .exec text args =>
    match db.Exec text args with
    | .error e => some e
    | .ok _ => none

/-- The headers every handler adds after the handle was opened, for its verb. -/
def corsHeader (verb : String) : Header :=
  [("Content-Type", ["application/json"]), ("Access-Control-Allow-Origin", ["*"]),
    ("Access-Control-Allow-Methods", [verb])]

/-! ## Sample inputs -/

/-- A cursor of two rows over the columns `c` and `a`. -/
def sampleRows : Rows :=
  { Columns := .ok ["c", "a"]
    scans := [.ok [Value.bytes "a", Value.int64 3], .ok [Value.nil, Value.string "x"]] }

/-- A backend that answers every query with `sampleRows` and every execution with
one affected row. -/
def sampleDB : DB :=
  { Query := fun _ _ => .ok sampleRows
    Exec := fun _ _ => .ok { RowsAffected := .ok 1 } }

/-- A backend on which every statement fails with the driver error `boom`. -/
def failingDB : DB :=
  { Query := fun _ _ => .error "boom"
    Exec := fun _ _ => .error "boom" }

/-- A backend whose single row holds the `float64` NaN in its single column. -/
def nanDB : DB :=
  { Query := fun _ _ => .ok { Columns := .ok ["c"], scans := [.ok [Value.float64 Float64.nan]] }
    Exec := fun _ _ => .ok { RowsAffected := .ok 0 } }

/-- A request carrying the secret `s`, with `what`, `b`, `auth` and `id` parameters. -/
def sampleRequest : Request :=
  { Header := [("Authorization", ["s"])]
    Query := [⟨"what", "*", []⟩, ⟨"b", "2", []⟩, ⟨"auth", "zz", []⟩, ⟨"id", "7", ["8"]⟩] }

/-- A request carrying the secret `s` and no parameter. -/
def bareRequest : Request :=
  { Header := [("Authorization", ["s"])]
    Query := [] }

/-- A request whose `Authorization` header is not the secret `s`. -/
def strangerRequest : Request :=
  { Header := [("Authorization", ["S"])]
    Query := [⟨"what", "*", []⟩, ⟨"id", "7", []⟩] }

/-! ## Theorems -/

/-- C1. A request whose `Authorization` value differs from the secret gets, from each
of the four protected handlers and whatever its query parameters are, once the
handle has been opened, status 401 and the body `{"msg":"Invalid auth"}` (the JSON
encoder ends it with a newline), and no statement is sent to the database. -/
theorem unauthorized_is_rejected (rt : Route) (db : DB) (env : Env) (r : Request)
    (AUTH TABLE : String) (hconn : env.ConnectDB = .ok db)
    (hauth : r.Header.Get "Authorization" ≠ AUTH) :
    (rt.handle env r AUTH TABLE).response.status = 401
      ∧ (rt.handle env r AUTH TABLE).response.body = "\x7b\"msg\":\"Invalid auth\"\x7d\n"
      ∧ (rt.handle env r AUTH TABLE).stmts = [] := by
  cases rt <;>
    simp only [Route.handle, GetInvoices, DeleteInvoice, AddInvoice, UpdateInvoice, hconn,
      hauth, ne_eq, not_false_eq_true, if_true] <;>
    exact ⟨by decide, by decide, trivial⟩

/-- C1, at a concrete request. -/
theorem unauthorized_is_rejected_witness :
    (Route.del.handle ⟨sampleDB⟩ strangerRequest "s" "t").response.status = 401
      ∧ (Route.del.handle ⟨sampleDB⟩ strangerRequest "s" "t").response.body
          = "\x7b\"msg\":\"Invalid auth\"\x7d\n"
      ∧ (Route.del.handle ⟨sampleDB⟩ strangerRequest "s" "t").stmts = [] :=
  unauthorized_is_rejected Route.del sampleDB ⟨sampleDB⟩ strangerRequest "s" "t" rfl
    (by decide)

/-- C2. An authorized request to `GetInvoices` whose `what` parameter is absent or
empty gets status 400 and an error object `{"msg": text}`, whether or not `id` is
supplied, and no query is sent. -/
theorem get_without_what_is_bad_request (db : DB) (env : Env) (r : Request)
    (AUTH TABLE : String) (hconn : env.ConnectDB = .ok db)
    (hauth : r.Header.Get "Authorization" = AUTH) (hwhat : r.Query.Get "what" = "") :
    (GetInvoices env r AUTH TABLE .fresh).response.status = 400
      ∧ (GetInvoices env r AUTH TABLE .fresh).response.body
          = encodeMsg "Missing 'id' or 'what' parameter"
      ∧ (GetInvoices env r AUTH TABLE .fresh).stmts = [] := by
  simp only [GetInvoices, hconn, hauth, hwhat, ne_eq, not_true_eq_false, and_false, if_false]
  exact ⟨by decide, by decide, trivial⟩

/-- C2, at a request without parameters. -/
theorem get_without_what_is_bad_request_witness :
    (GetInvoices ⟨sampleDB⟩ bareRequest "s" "t" .fresh).response.status = 400
      ∧ (GetInvoices ⟨sampleDB⟩ bareRequest "s" "t" .fresh).response.body
          = encodeMsg "Missing 'id' or 'what' parameter"
      ∧ (GetInvoices ⟨sampleDB⟩ bareRequest "s" "t" .fresh).stmts = [] :=
  get_without_what_is_bad_request sampleDB ⟨sampleDB⟩ bareRequest "s" "t" rfl
    (by decide) (by decide)

/-- C3. An authorized request to `GetInvoices` with a non-empty `what` sends exactly one
query. With a non-empty `id` its text is `SELECT what FROM table WHERE id = $1` and
its arguments are the id alone; the text is built from `what` and the table only, so
it is the same for every id. With `id` absent or empty its text is
`SELECT what FROM table` and it has no argument. -/
theorem get_issues_one_select (db : DB) (env : Env) (r : Request) (AUTH TABLE : String)
    (hconn : env.ConnectDB = .ok db) (hauth : r.Header.Get "Authorization" = AUTH)
    (hwhat : r.Query.Get "what" ≠ "") :
    (r.Query.Get "id" ≠ "" →
        (GetInvoices env r AUTH TABLE .fresh).stmts
          = [Stmt.query ("SELECT " ++ r.Query.Get "what" ++ " FROM " ++ TABLE ++ " WHERE id = $1")
              [r.Query.Get "id"]])
      ∧ (r.Query.Get "id" = "" →
        (GetInvoices env r AUTH TABLE .fresh).stmts
          = [Stmt.query ("SELECT " ++ r.Query.Get "what" ++ " FROM " ++ TABLE) []])
      ∧ (∀ r2 : Request, r2.Header.Get "Authorization" = AUTH →
          r2.Query.Get "what" = r.Query.Get "what" →
          r.Query.Get "id" ≠ "" → r2.Query.Get "id" ≠ "" →
          (GetInvoices env r2 AUTH TABLE .fresh).stmts.map Stmt.text
            = (GetInvoices env r AUTH TABLE .fresh).stmts.map Stmt.text) := by
  refine ⟨?_, ?_, ?_⟩
  · intro hid
    simp [GetInvoices, hconn, hauth, hwhat, hid]
  · intro hid
    simp [GetInvoices, hconn, hauth, hwhat, hid]
  · intro r2 hauth2 hwhat2 hid hid2
    have hwhat2b : r2.Query.Get "what" ≠ "" := by rw [hwhat2]; exact hwhat
    simp [GetInvoices, hconn, hauth, hauth2, hwhat, hwhat2b, hid, hid2, Stmt.text, hwhat2]

/-- C3, at a request with `what=*` and `id=7`. -/
theorem get_issues_one_select_witness :
    (GetInvoices ⟨sampleDB⟩ sampleRequest "s" "t" .fresh).stmts
      = [Stmt.query "SELECT * FROM t WHERE id = $1" ["7"]] :=
  (get_issues_one_select sampleDB ⟨sampleDB⟩ sampleRequest "s" "t" rfl (by decide)
    (by decide)).1 (by decide)

/-- C6. An authorized request to `DeleteInvoice` without a non-empty `id` gets status
400 and nothing is executed. Otherwise exactly one statement is executed,
`DELETE FROM table WHERE id = $1` with the id as its only argument, and when it
succeeds with affected-row count `n` (zero included) the response has status 200
and the body `{"msg": "ok", "affected": n}` with the driver's `n`. -/
theorem delete_contract (db : DB) (env : Env) (r : Request) (AUTH TABLE : String)
    (hconn : env.ConnectDB = .ok db) (hauth : r.Header.Get "Authorization" = AUTH) :
    (r.Query.Get "id" = "" →
        (DeleteInvoice env r AUTH TABLE .fresh).response.status = 400
          ∧ (DeleteInvoice env r AUTH TABLE .fresh).stmts = [])
      ∧ (r.Query.Get "id" ≠ "" →
        (DeleteInvoice env r AUTH TABLE .fresh).stmts
            = [Stmt.exec ("DELETE FROM " ++ TABLE ++ " WHERE id = $1") [r.Query.Get "id"]]
          ∧ ∀ (result : Result) (n : Int),
              db.Exec ("DELETE FROM " ++ TABLE ++ " WHERE id = $1") [r.Query.Get "id"]
                = .ok result →
              result.RowsAffected = .ok n →
              (DeleteInvoice env r AUTH TABLE .fresh).response.status = 200
                ∧ (DeleteInvoice env r AUTH TABLE .fresh).response.body
                    = "\x7b\"msg\": \"ok\", \"affected\": " ++ toString n ++ "\x7d") := by
  refine ⟨?_, ?_⟩
  · intro hid
    simp only [DeleteInvoice, hconn, hauth, hid, ne_eq, not_true_eq_false, if_false, if_true]
    exact ⟨by decide, trivial⟩
  · intro hid
    constructor
    · simp only [DeleteInvoice, hconn, hauth, hid, ne_eq, not_true_eq_false, if_false]
      cases db.Exec ("DELETE FROM " ++ TABLE ++ " WHERE id = $1") [r.Query.Get "id"] <;> rfl
    · intro result n hexec hrows
      simp only [DeleteInvoice, hconn, hauth, hid, ne_eq, not_true_eq_false, if_false, hexec,
        writeAffected, hrows]
      exact ⟨rfl, by simp [Run.response, ResponseWriter.response, ResponseWriter.Write,
        ResponseWriter.WriteHeader, ResponseWriter.fresh]⟩

/-- C6, at a request with `id=7` on a backend reporting one affected row. -/
theorem delete_contract_witness :
    (DeleteInvoice ⟨sampleDB⟩ sampleRequest "s" "t" .fresh).response.status = 200
      ∧ (DeleteInvoice ⟨sampleDB⟩ sampleRequest "s" "t" .fresh).response.body
          = "\x7b\"msg\": \"ok\", \"affected\": " ++ toString (1 : Int) ++ "\x7d" :=
  ((delete_contract sampleDB ⟨sampleDB⟩ sampleRequest "s" "t" rfl (by decide)).2
    (by decide)).2 ⟨.ok 1⟩ 1 rfl rfl

/-- Closed form of the loop of `AddInvoice` from any state. -/
theorem AddInvoice_foldl_step (req : Values) (st : AddState) :
    req.foldl AddInvoice.step st
      = { columns := st.columns ++ (req.filter (fun p => decide (p.key ≠ "auth"))).map Param.key
          placeholders := st.placeholders
            ++ (List.range' st.i (req.filter (fun p => decide (p.key ≠ "auth"))).length).map
                (fun j => "$" ++ toString j)
          values := st.values ++ (req.filter (fun p => decide (p.key ≠ "auth"))).map Param.first
          i := st.i + (req.filter (fun p => decide (p.key ≠ "auth"))).length } := by
  induction req generalizing st with
  | nil => simp
  | cons p rest ih =>
    rw [List.foldl_cons, ih]
    by_cases hp : p.key = "auth"
    · simp [AddInvoice.step, hp]
    · simp [AddInvoice.step, hp, List.range'_succ, Nat.add_assoc, Nat.add_comm 1]

/-- Closed form of the loop of `UpdateInvoice` from any state. -/
theorem UpdateInvoice_foldl_step (req : Values) (st : UpdState) :
    req.foldl UpdateInvoice.step st
      = { updates := st.updates
            ++ ((req.filter (fun p => decide (p.key ≠ "id" ∧ p.key ≠ "auth"))).enumFrom st.i).map
                (fun jp => jp.2.key ++ " = $" ++ toString jp.1)
          values := st.values
            ++ (req.filter (fun p => decide (p.key ≠ "id" ∧ p.key ≠ "auth"))).map Param.first
          i := st.i + (req.filter (fun p => decide (p.key ≠ "id" ∧ p.key ≠ "auth"))).length } := by
  induction req generalizing st with
  | nil => simp
  | cons p rest ih =>
    rw [List.foldl_cons, ih]
    by_cases hp : p.key ≠ "id" ∧ p.key ≠ "auth"
    · simp [UpdateInvoice.step, hp, List.enumFrom_cons, Nat.add_assoc, Nat.add_comm 1]
    · simp [UpdateInvoice.step, hp]

/-- In a map (keys without repetition) the first value of an entry is what `Get`
returns for its key. -/
theorem Values.Get_of_mem (v : Values) (hnodup : (v.map Param.key).Nodup) (p : Param)
    (hp : p ∈ v) : Values.Get v p.key = p.first := by
  induction v with
  | nil => cases hp
  | cons q rest ih =>
    rw [List.map_cons, List.nodup_cons] at hnodup
    rcases List.mem_cons.mp hp with h | h
    · subst h
      simp [Values.Get]
    · have hne : q.key ≠ p.key := by
        intro heq
        exact hnodup.1 (heq ▸ List.mem_map_of_mem Param.key h)
      simp [Values.Get, hne, ih hnodup.2 h]

/-- C4. An authorized request to `AddInvoice` executes exactly one statement. With
`k_1 .. k_n` the parameter keys other than `auth` in the order of iteration, its
text is `INSERT INTO table (k_1,...,k_n) VALUES ($1,...,$n)` and its arguments are
the first values of `k_1 .. k_n` in that order: `auth` is no column, there are as
many placeholders and arguments as columns, and the j-th of each belongs to the
j-th parameter. -/
theorem add_statement (db : DB) (env : Env) (r : Request) (AUTH TABLE : String)
    (hconn : env.ConnectDB = .ok db) (hauth : r.Header.Get "Authorization" = AUTH) :
    (AddInvoice env r AUTH TABLE .fresh).stmts
        = [Stmt.exec
            ("INSERT INTO " ++ TABLE ++ " ("
              ++ ",".intercalate ((r.Query.filter (fun p => decide (p.key ≠ "auth"))).map Param.key)
              ++ ") VALUES ("
              ++ ",".intercalate
                  ((List.range' 1 (r.Query.filter (fun p => decide (p.key ≠ "auth"))).length).map
                    (fun j => "$" ++ toString j))
              ++ ")")
            ((r.Query.filter (fun p => decide (p.key ≠ "auth"))).map Param.first)]
      ∧ "auth" ∉ (r.Query.filter (fun p => decide (p.key ≠ "auth"))).map Param.key
      ∧ ((r.Query.map Param.key).Nodup →
          (r.Query.filter (fun p => decide (p.key ≠ "auth"))).map Param.first
            = ((r.Query.filter (fun p => decide (p.key ≠ "auth"))).map Param.key).map
                (Values.Get r.Query)) := by
  refine ⟨?_, ?_, ?_⟩
  · simp only [AddInvoice, hconn, hauth, ne_eq, not_true_eq_false, if_false, AddInvoice.loop,
      AddInvoice_foldl_step, List.nil_append]
    cases db.Exec _ _ <;> rfl
  · simp
  · intro hnodup
    rw [List.map_map]
    apply List.map_congr_left
    intro p hp
    exact (Values.Get_of_mem r.Query hnodup p (List.mem_filter.mp hp).1).symm

/-- C4, at a request with the parameters `what`, `b`, `auth` and `id`. -/
theorem add_statement_witness :
    (AddInvoice ⟨sampleDB⟩ sampleRequest "s" "t" .fresh).stmts
      = [Stmt.exec "INSERT INTO t (what,b,id) VALUES ($1,$2,$3)" ["*", "2", "7"]] :=
  (add_statement sampleDB ⟨sampleDB⟩ sampleRequest "s" "t" rfl (by decide)).1.trans
    (by decide)

/-- C5. An authorized request to `UpdateInvoice` with a non-empty `id` executes exactly
one statement. With `k_1 .. k_n` the parameter keys other than `id` and `auth` in
the order of iteration, its text is `UPDATE table SET ` followed by the assignments
`k_j = $j` separated by commas and by ` WHERE id = $(n+1)`, and its arguments are
the first values of `k_1 .. k_n` followed by the id. With no such key the `SET`
clause is empty and the id is the only argument. -/
theorem update_statement (db : DB) (env : Env) (r : Request) (AUTH TABLE : String)
    (hconn : env.ConnectDB = .ok db) (hauth : r.Header.Get "Authorization" = AUTH)
    (hid : r.Query.Get "id" ≠ "") :
    (UpdateInvoice env r AUTH TABLE .fresh).stmts
        = [Stmt.exec
            ("UPDATE " ++ TABLE ++ " SET "
              ++ ",".intercalate
                  (((r.Query.filter (fun p => decide (p.key ≠ "id" ∧ p.key ≠ "auth"))).enumFrom 1).map
                    (fun jp => jp.2.key ++ " = $" ++ toString jp.1))
              ++ " WHERE id = $"
              ++ toString
                  ((r.Query.filter (fun p => decide (p.key ≠ "id" ∧ p.key ≠ "auth"))).length + 1))
            ((r.Query.filter (fun p => decide (p.key ≠ "id" ∧ p.key ≠ "auth"))).map Param.first
              ++ [r.Query.Get "id"])]
      ∧ (r.Query.filter (fun p => decide (p.key ≠ "id" ∧ p.key ≠ "auth")) = [] →
          (UpdateInvoice env r AUTH TABLE .fresh).stmts
            = [Stmt.exec ("UPDATE " ++ TABLE ++ " SET  WHERE id = $1") [r.Query.Get "id"]]) := by
  have key : (UpdateInvoice env r AUTH TABLE .fresh).stmts
        = [Stmt.exec
            ("UPDATE " ++ TABLE ++ " SET "
              ++ ",".intercalate
                  (((r.Query.filter (fun p => decide (p.key ≠ "id" ∧ p.key ≠ "auth"))).enumFrom 1).map
                    (fun jp => jp.2.key ++ " = $" ++ toString jp.1))
              ++ " WHERE id = $"
              ++ toString
                  ((r.Query.filter (fun p => decide (p.key ≠ "id" ∧ p.key ≠ "auth"))).length + 1))
            ((r.Query.filter (fun p => decide (p.key ≠ "id" ∧ p.key ≠ "auth"))).map Param.first
              ++ [r.Query.Get "id"])] := by
    simp only [UpdateInvoice, hconn, hauth, hid, ne_eq, not_true_eq_false, if_false,
      UpdateInvoice.loop, UpdateInvoice_foldl_step, List.nil_append, Nat.add_comm 1]
    cases db.Exec _ _ <;> rfl
  refine ⟨key, ?_⟩
  intro hnone
  have htext : ∀ x : String,
      x ++ " SET " ++ ",".intercalate [] ++ " WHERE id = $" ++ toString (0 + 1)
        = x ++ " SET  WHERE id = $1" := by
    intro x
    simp only [String.append_assoc]
    congr 1
  rw [key, hnone]
  simp only [List.enumFrom_nil, List.map_nil, List.length_nil, List.nil_append, htext]

/-- C5, at a request with the parameters `what`, `b`, `auth` and `id=7`. -/
theorem update_statement_witness :
    (UpdateInvoice ⟨sampleDB⟩ sampleRequest "s" "t" .fresh).stmts
      = [Stmt.exec "UPDATE t SET what = $1,b = $2 WHERE id = $3" ["*", "2", "7"]] :=
  (update_statement sampleDB ⟨sampleDB⟩ sampleRequest "s" "t" rfl (by decide)
    (by decide)).1.trans (by decide)

/-- The response `writeJSONError` leaves on a writer whose status is not written. -/
theorem writeJSONError_response (w : ResponseWriter) (hw : w.status = none)
    (message : String) (statusCode : Nat) :
    (writeJSONError w message statusCode).response
      = { status := statusCode
          header := w.header.Set "Content-Type" "application/json"
          body := w.body ++ encodeMsg message } := by
  simp [writeJSONError, ResponseWriter.Write, ResponseWriter.WriteHeader,
    ResponseWriter.response, hw]

/-- The loop of `GetInvoices` over a cursor without scan error appends one row map
per row, in cursor order. -/
theorem GetInvoices.loop_ok (columns : List String) (scanned : List (List Value))
    (data : RowSlice) :
    GetInvoices.loop columns (scanned.map Except.ok) data
      = .ok (scanned.foldl
          (fun d s => RowSlice.append d (GetInvoices.row columns (scanInto columns.length s)))
          data) := by
  induction scanned generalizing data with
  | nil => rfl
  | cons s rest ih => simp only [List.map_cons, GetInvoices.loop, ih, List.foldl_cons]

/-- Appending to a slice that is not nil. -/
theorem RowSlice.foldl_append_some {α : Type} (f : α → Row) (xs : List α) (rows : List Row) :
    xs.foldl (fun d s => RowSlice.append d (f s)) (some rows) = some (rows ++ xs.map f) := by
  induction xs generalizing rows with
  | nil => simp
  | cons x rest ih =>
    rw [List.foldl_cons]
    have happ : RowSlice.append (some rows) (f x) = some (rows ++ [f x]) := rfl
    rw [happ, ih]
    simp

/-- Appending to the nil slice: it stays nil exactly when nothing is appended. -/
theorem RowSlice.foldl_append_none {α : Type} (f : α → Row) (xs : List α) :
    xs.foldl (fun d s => RowSlice.append d (f s)) none
      = if xs.length = 0 then none else some (xs.map f) := by
  cases xs with
  | nil => rfl
  | cons x rest =>
    rw [List.foldl_cons]
    have happ : RowSlice.append none (f x) = some [f x] := rfl
    rw [happ, RowSlice.foldl_append_some]
    simp

/-- The encodings `marshalRows` returns are those of the rows, one each, in order. -/
theorem marshalRows_forall₂ (rows : List Row) (objs : List String)
    (h : marshalRows rows = .ok objs) :
    List.Forall₂ (fun row o => marshalRow row = .ok o) rows objs := by
  induction rows generalizing objs with
  | nil =>
    simp only [marshalRows, Except.ok.injEq] at h
    subst h
    exact List.Forall₂.nil
  | cons row rest ih =>
    simp only [marshalRows] at h
    cases hrow : marshalRow row with
    | error e => simp [hrow] at h
    | ok j =>
      cases hrest : marshalRows rest with
      | error e => simp [hrow, hrest] at h
      | ok js =>
        simp only [hrow, hrest, Except.ok.injEq] at h
        subst h
        exact List.Forall₂.cons hrow (ih js hrest)

/-- An encoded row is a JSON object. -/
theorem marshalRow_object (row : Row) (o : String) (h : marshalRow row = .ok o) :
    ∃ members : List String, o = "\x7b" ++ ",".intercalate members ++ "\x7d" := by
  unfold marshalRow at h
  cases hm : marshalMembers (sortByKey row) with
  | error e => simp [hm] at h
  | ok members =>
    simp only [hm, Except.ok.injEq] at h
    exact ⟨members, h.symm⟩

/-- When `GetInvoices` sent a query, its response is what the part after the query
writes, from the headers of the route and the answer to that query. -/
theorem GetInvoices_of_stmt (db : DB) (env : Env) (r : Request) (AUTH TABLE : String)
    (text : String) (args : List String) (hconn : env.ConnectDB = .ok db)
    (hstmt : (GetInvoices env r AUTH TABLE .fresh).stmts = [Stmt.query text args]) :
    (GetInvoices env r AUTH TABLE .fresh).w
      = GetInvoices.finish
          { header := corsHeader "GET", status := none, sent := [], body := "" }
          (db.Query text args) := by
  unfold GetInvoices at hstmt ⊢
  simp only [hconn] at hstmt ⊢
  split_ifs at hstmt ⊢ with h1 h2 h3
  all_goals
    simp only [List.cons.injEq, Stmt.query.injEq, and_true] at hstmt
    obtain ⟨rfl, rfl⟩ := hstmt
    rfl

/-- C7, as amended. Take an authorized `GetInvoices` request whose query succeeds with
its column names and whose cursor yields `r` rows without a scan error. If
`json.Marshal` encodes the rows, the response has status 200 and the body
`{"msg": "ok", "data": D}`: `D` is the literal `null` when `r = 0` and otherwise
the array of the `r` encoded rows, each a JSON object, in cursor order. With
`r = 0` this is always so. If `json.Marshal` rejects the rows, the response is
500 with the body `{"msg":"Error marshalling data"}`. -/
theorem get_success_body (db : DB) (env : Env) (r : Request) (AUTH TABLE : String)
    (text : String) (args : List String) (rows : Rows) (columns : List String)
    (scanned : List (List Value))
    (hconn : env.ConnectDB = .ok db)
    (hstmt : (GetInvoices env r AUTH TABLE .fresh).stmts = [Stmt.query text args])
    (hquery : db.Query text args = .ok rows)
    (hcols : rows.Columns = .ok columns)
    (hscan : rows.scans = scanned.map Except.ok) :
    (∀ objs : List String,
        marshalRows (scanned.map (fun s => GetInvoices.row columns (scanInto columns.length s)))
          = .ok objs →
        (GetInvoices env r AUTH TABLE .fresh).response.status = 200
          ∧ (GetInvoices env r AUTH TABLE .fresh).response.body
              = "\x7b\"msg\": \"ok\", \"data\": "
                  ++ (if scanned.length = 0 then "null" else "[" ++ ",".intercalate objs ++ "]")
                  ++ "\x7d"
          ∧ objs.length = scanned.length
          ∧ List.Forall₂
              (fun s o =>
                marshalRow (GetInvoices.row columns (scanInto columns.length s)) = .ok o
                  ∧ ∃ members : List String, o = "\x7b" ++ ",".intercalate members ++ "\x7d")
              scanned objs)
      ∧ (scanned = [] →
        (GetInvoices env r AUTH TABLE .fresh).response.status = 200
          ∧ (GetInvoices env r AUTH TABLE .fresh).response.body
              = "\x7b\"msg\": \"ok\", \"data\": null\x7d")
      ∧ (∀ e : String,
        marshalRows (scanned.map (fun s => GetInvoices.row columns (scanInto columns.length s)))
          = .error e →
        (GetInvoices env r AUTH TABLE .fresh).response.status = 500
          ∧ (GetInvoices env r AUTH TABLE .fresh).response.body
              = encodeMsg "Error marshalling data") := by
  have hrun := GetInvoices_of_stmt db env r AUTH TABLE text args hconn hstmt
  have hok : ∀ objs : List String,
      marshalRows (scanned.map (fun s => GetInvoices.row columns (scanInto columns.length s)))
        = .ok objs →
      (GetInvoices env r AUTH TABLE .fresh).response.status = 200
        ∧ (GetInvoices env r AUTH TABLE .fresh).response.body
            = "\x7b\"msg\": \"ok\", \"data\": "
                ++ (if scanned.length = 0 then "null" else "[" ++ ",".intercalate objs ++ "]")
                ++ "\x7d" := by
    intro objs hjson
    rw [Run.response, hrun, hquery]
    simp only [GetInvoices.finish, hcols, hscan, GetInvoices.loop_ok,
      RowSlice.foldl_append_none]
    by_cases hlen : scanned.length = 0
    · simp [hlen, marshalData, ResponseWriter.Write, ResponseWriter.WriteHeader,
        ResponseWriter.response]
    · simp [hlen, marshalData, hjson, ResponseWriter.Write, ResponseWriter.WriteHeader,
        ResponseWriter.response, String.append_assoc]
  refine ⟨?_, ?_, ?_⟩
  · intro objs hjson
    have hall := marshalRows_forall₂ _ _ hjson
    rw [List.forall₂_map_left_iff] at hall
    exact ⟨(hok objs hjson).1, (hok objs hjson).2, hall.length_eq.symm,
      List.Forall₂.imp (fun _ _ h => ⟨h, marshalRow_object _ _ h⟩) hall⟩
  · intro hnil
    subst hnil
    exact hok [] rfl
  · intro e hjson
    have hlen : scanned.length ≠ 0 := by
      intro h0
      rw [List.length_eq_zero.mp h0] at hjson
      simp [marshalRows] at hjson
    rw [Run.response, hrun, hquery]
    simp only [GetInvoices.finish, hcols, hscan, GetInvoices.loop_ok,
      RowSlice.foldl_append_none, if_neg hlen, marshalData, hjson]
    rw [writeJSONError_response _ rfl]
    exact ⟨rfl, rfl⟩

/-- C7, amended, at the two rows of `sampleRows`: the byte sequence `a` is written
as the text `a`, and the rows come in cursor order. -/
theorem get_success_body_witness :
    (GetInvoices ⟨sampleDB⟩ sampleRequest "s" "t" .fresh).response.status = 200
      ∧ (GetInvoices ⟨sampleDB⟩ sampleRequest "s" "t" .fresh).response.body
          = "\x7b\"msg\": \"ok\", \"data\": "
            ++ "[\x7b\"a\":3,\"c\":\"a\"\x7d,\x7b\"a\":\"x\",\"c\":null\x7d]" ++ "\x7d" :=
  have h := get_success_body sampleDB ⟨sampleDB⟩ sampleRequest "s" "t"
    "SELECT * FROM t WHERE id = $1" ["7"] sampleRows ["c", "a"]
    [[Value.bytes "a", Value.int64 3], [Value.nil, Value.string "x"]]
    rfl (by decide) rfl rfl rfl
  have h1 := h.1 ["\x7b\"a\":3,\"c\":\"a\"\x7d", "\x7b\"a\":\"x\",\"c\":null\x7d"] (by rfl)
  ⟨h1.1, h1.2.1.trans (by decide)⟩

/-- C7 fails as stated. The request is authorized, its query succeeds and the cursor
yields one row without a scan error, but the row holds the `float64` NaN, which
`json.Marshal` rejects: the response is 500 `Error marshalling data`, not 200. -/
theorem get_nan_row_is_500 :
    sampleRequest.Header.Get "Authorization" = "s"
      ∧ (GetInvoices ⟨nanDB⟩ sampleRequest "s" "t" .fresh).stmts
          = [Stmt.query "SELECT * FROM t WHERE id = $1" ["7"]]
      ∧ (∃ rows : Rows, nanDB.Query "SELECT * FROM t WHERE id = $1" ["7"] = .ok rows
          ∧ rows.Columns = .ok ["c"]
          ∧ rows.scans = [[Value.float64 Float64.nan]].map Except.ok)
      ∧ (GetInvoices ⟨nanDB⟩ sampleRequest "s" "t" .fresh).response.status = 500
      ∧ (GetInvoices ⟨nanDB⟩ sampleRequest "s" "t" .fresh).response.body
          = encodeMsg "Error marshalling data" :=
  ⟨by decide, by decide, ⟨_, rfl, rfl, rfl⟩, by decide, by decide⟩

/-- What a failed execution means for the handle: the driver error of a statement. -/
theorem DB.failure_exec (db : DB) (text : String) (args : List String) (e : String)
    (h : db.failure (Stmt.exec text args) = some e) : db.Exec text args = .error e := by
  unfold DB.failure at h
  cases hx : db.Exec text args with
  | error e2 =>
    simp only [hx, Option.some.injEq] at h
    rw [h]
  | ok res => simp [hx] at h

/-- What a failed query means for the handle: the driver error of a statement. -/
theorem DB.failure_query (db : DB) (text : String) (args : List String) (e : String)
    (h : db.failure (Stmt.query text args) = some e) : db.Query text args = .error e := by
  unfold DB.failure at h
  cases hx : db.Query text args with
  | error e2 =>
    simp only [hx, Option.some.injEq] at h
    rw [h]
  | ok res => simp [hx] at h

/-- C8. When the statement a handler sent fails with the driver error `e`:
`AddInvoice` answers 500 with `msg` equal to `Error inserting data: ` followed by
`e`; `GetInvoices`, `UpdateInvoice` and `DeleteInvoice` answer with one fixed 500
response each, whatever `e` is, so the driver's text does not reach the caller. -/
theorem execution_failure_responses (db : DB) (env : Env) (r : Request) (AUTH TABLE : String)
    (s : Stmt) (e : String) (hconn : env.ConnectDB = .ok db)
    (hfail : db.failure s = some e) :
    ((AddInvoice env r AUTH TABLE .fresh).stmts = [s] →
        (AddInvoice env r AUTH TABLE .fresh).response
          = { status := 500, header := corsHeader "POST"
              body := encodeMsg ("Error inserting data: " ++ e) })
      ∧ ((GetInvoices env r AUTH TABLE .fresh).stmts = [s] →
        (GetInvoices env r AUTH TABLE .fresh).response
          = { status := 500, header := corsHeader "GET"
              body := encodeMsg "Error fetching data" })
      ∧ ((UpdateInvoice env r AUTH TABLE .fresh).stmts = [s] →
        (UpdateInvoice env r AUTH TABLE .fresh).response
          = { status := 500, header := corsHeader "PUT"
              body := encodeMsg "Error updating data" })
      ∧ ((DeleteInvoice env r AUTH TABLE .fresh).stmts = [s] →
        (DeleteInvoice env r AUTH TABLE .fresh).response
          = { status := 500, header := corsHeader "DELETE"
              body := encodeMsg "Error deleting data" }) := by
  refine ⟨?_, ?_, ?_, ?_⟩
  · intro hstmt
    unfold AddInvoice at hstmt ⊢
    simp only [hconn] at hstmt ⊢
    split_ifs at hstmt ⊢ with h1
    have hs : s = Stmt.exec
        ("INSERT INTO " ++ TABLE ++ " (" ++ ",".intercalate (AddInvoice.loop r.Query).columns
          ++ ") VALUES (" ++ ",".intercalate (AddInvoice.loop r.Query).placeholders ++ ")")
        (AddInvoice.loop r.Query).values := by
      cases hx : db.Exec
        ("INSERT INTO " ++ TABLE ++ " (" ++ ",".intercalate (AddInvoice.loop r.Query).columns
          ++ ") VALUES (" ++ ",".intercalate (AddInvoice.loop r.Query).placeholders ++ ")")
        (AddInvoice.loop r.Query).values <;>
        simp only [hx, List.cons.injEq, and_true] at hstmt <;> exact hstmt.symm
    rw [hs] at hfail
    rw [DB.failure_exec db _ _ e hfail]
    simp only [Run.response]
    rw [writeJSONError_response _ rfl]
    rfl
  · intro hstmt
    have hq : ∃ text args, s = Stmt.query text args := by
      unfold GetInvoices at hstmt
      simp only [hconn] at hstmt
      split_ifs at hstmt with h1 h2 h3
      all_goals
        simp only [List.cons.injEq, and_true] at hstmt
        exact ⟨_, _, hstmt.symm⟩
    obtain ⟨text, args, rfl⟩ := hq
    rw [Run.response, GetInvoices_of_stmt db env r AUTH TABLE text args hconn hstmt,
      DB.failure_query db text args e hfail]
    rfl
  · intro hstmt
    unfold UpdateInvoice at hstmt ⊢
    simp only [hconn] at hstmt ⊢
    split_ifs at hstmt ⊢ with h1 h2
    have hs : s = Stmt.exec
        ("UPDATE " ++ TABLE ++ " SET " ++ ",".intercalate (UpdateInvoice.loop r.Query).updates
          ++ " WHERE id = $" ++ toString (UpdateInvoice.loop r.Query).i)
        ((UpdateInvoice.loop r.Query).values ++ [r.Query.Get "id"]) := by
      cases hx : db.Exec
        ("UPDATE " ++ TABLE ++ " SET " ++ ",".intercalate (UpdateInvoice.loop r.Query).updates
          ++ " WHERE id = $" ++ toString (UpdateInvoice.loop r.Query).i)
        ((UpdateInvoice.loop r.Query).values ++ [r.Query.Get "id"]) <;>
        simp only [hx, List.cons.injEq, and_true] at hstmt <;> exact hstmt.symm
    rw [hs] at hfail
    rw [DB.failure_exec db _ _ e hfail]
    rfl
  · intro hstmt
    unfold DeleteInvoice at hstmt ⊢
    simp only [hconn] at hstmt ⊢
    split_ifs at hstmt ⊢ with h1 h2
    have hs : s = Stmt.exec ("DELETE FROM " ++ TABLE ++ " WHERE id = $1") [r.Query.Get "id"] := by
      cases hx : db.Exec ("DELETE FROM " ++ TABLE ++ " WHERE id = $1") [r.Query.Get "id"] <;>
        simp only [hx, List.cons.injEq, and_true] at hstmt <;> exact hstmt.symm
    rw [hs] at hfail
    rw [DB.failure_exec db _ _ e hfail]
    rfl

/-- C8, on a backend that fails every statement with the error `boom`. -/
theorem execution_failure_responses_witness :
    (AddInvoice ⟨failingDB⟩ sampleRequest "s" "t" .fresh).response
      = { status := 500, header := corsHeader "POST"
          body := encodeMsg ("Error inserting data: " ++ "boom") } :=
  (execution_failure_responses failingDB ⟨failingDB⟩ sampleRequest "s" "t"
    (Stmt.exec "INSERT INTO t (what,b,id) VALUES ($1,$2,$3)" ["*", "2", "7"]) "boom" rfl
    rfl).1 (by decide)

/-- A later write leaves the status and the headers of the response as they are. -/
theorem Write_response_header (w : ResponseWriter) (c : Nat) (hw : w.status = some c)
    (b : String) :
    ((w.Write b).response.status = w.response.status)
      ∧ (w.Write b).response.header = w.response.header := by
  simp [ResponseWriter.Write, ResponseWriter.WriteHeader, ResponseWriter.response, hw]

/-- The health response: status 200, the JSON headers for GET, the greeting. -/
theorem RootHandler_response :
    (RootHandler .fresh).response
      = { status := 200, header := corsHeader "GET"
          body := "\x7b\"msg\":\"Hello\",\"status\":\"ready\"\x7d" } := by
  decide

/-- The two row builders agree on a row in which no value is a byte sequence. -/
theorem rows_agree_without_bytes (columns : List String) (values : List Value)
    (h : ∀ v ∈ values, GetInvoices.convert v = v) :
    RowsToJson.row columns values = GetInvoices.row columns values := by
  have hconv : ∀ i : Nat, GetInvoices.convert (values.getD i Value.nil) = values.getD i Value.nil := by
    intro i
    rw [List.getD_eq_getElem?_getD]
    cases hi : values[i]? with
    | none => rfl
    | some v => exact h v (List.mem_iff_getElem?.mpr ⟨i, hi⟩)
  unfold RowsToJson.row GetInvoices.row
  simp only [hconv]

/-- The row `GetInvoices` builds is the row `RowsToJson` would build from the
converted values. -/
theorem GetInvoices_row_eq (columns : List String) (values : List Value) :
    GetInvoices.row columns values
      = RowsToJson.row columns (values.map GetInvoices.convert) := by
  have hget : ∀ i : Nat, (values.map GetInvoices.convert).getD i Value.nil
      = GetInvoices.convert (values.getD i Value.nil) := by
    intro i
    rw [List.getD_eq_getElem?_getD, List.getD_eq_getElem?_getD, List.getElem?_map]
    cases values[i]? <;> rfl
  unfold RowsToJson.row GetInvoices.row
  simp only [hget]

/-- C10 fails on the code. For a column the driver returns as the byte sequence `a`,
the loop of `GetInvoices` stores the text `a`, but `RowsToJson` stores the byte
sequence itself, which is then written in base64: the two serializers build
different row mappings and different JSON for the same result set. -/
theorem serializers_differ_on_bytes :
    Row.get? (RowsToJson.row ["c"] [Value.bytes "a"]) "c" = some (Value.bytes "a")
      ∧ Row.get? (GetInvoices.row ["c"] [Value.bytes "a"]) "c" = some (Value.string "a")
      ∧ RowsToJson.row ["c"] [Value.bytes "a"] ≠ GetInvoices.row ["c"] [Value.bytes "a"]
      ∧ RowsToJson sampleRows
          = .ok "[\x7b\"a\":3,\"c\":\"YQ==\"\x7d,\x7b\"a\":\"x\",\"c\":null\x7d]"
      ∧ (GetInvoices ⟨sampleDB⟩ sampleRequest "s" "t" .fresh).response.body
          = "\x7b\"msg\": \"ok\", \"data\": "
            ++ "[\x7b\"a\":3,\"c\":\"a\"\x7d,\x7b\"a\":\"x\",\"c\":null\x7d]" ++ "\x7d" :=
  ⟨by decide, by decide, by decide, by rfl, by decide⟩

end GoDbPg
